import Mathlib

/-!
Shallow embedding of the KBA market-analysis ETL normalization core
(`src/notebooks/_4_fz1.ipynb` and the two CSV post-processing scripts in
`src/unnamed/part_000`, `src/unnamed/part_001`), together with theorems
settling the frozen claims about it.

Strings are modelled via their character lists; spreadsheet / DataFrame
cells are modelled by the inductive type `Cell` (missing, string, number),
with numbers as exact rationals `ℚ` in place of Python floats (none of the
claims depends on floating-point rounding).
-/

/-- A spreadsheet / DataFrame cell value: missing (`null`, modelling Python
`None` / pandas `NaN`), a string, or a number. -/
inductive Cell where
  | null : Cell
  | str : String → Cell
  | num : ℚ → Cell
deriving DecidableEq, Repr

/-- The characters Python's `str.strip()` removes (ASCII whitespace). -/
def pyIsSpace (c : Char) : Bool :=
  c = ' ' || c = '\t' || c = '\n' || c = '\r' || c = '\x0b' || c = '\x0c'

/-- Python `str.strip()` on a character list. -/
def pyStripChars (l : List Char) : List Char :=
  ((l.dropWhile pyIsSpace).reverse.dropWhile pyIsSpace).reverse

/-- Python `str.strip()` on strings. -/
def pyStrip (s : String) : String :=
  String.mk (pyStripChars s.data)

/-- `str.maketrans("äÄöÖüÜ", "aAoOuU")`: the notebook's single-letter
umlaut fold (source: `_clean_header` in `_4_fz1.ipynb`). -/
def translateUmlaut (c : Char) : Char :=
  if c = 'ä' then 'a'
  else if c = 'Ä' then 'A'
  else if c = 'ö' then 'o'
  else if c = 'Ö' then 'O'
  else if c = 'ü' then 'u'
  else if c = 'Ü' then 'U'
  else c

/-- `.replace("\n", " ")`: newline to single space (character map). -/
def newlineToSpace (c : Char) : Char :=
  if c = '\n' then ' ' else c

/-- Python `str.replace("  ", " ")`: one left-to-right pass replacing each
non-overlapping occurrence of two consecutive spaces with one space; the
emitted space is not reconsidered against the following character. -/
def collapseDoubleSpace : List Char → List Char
  | [] => []
  | [c] => [c]
  | c :: c2 :: rest2 =>
    if c = ' ' ∧ c2 = ' ' then ' ' :: collapseDoubleSpace rest2
    else c :: collapseDoubleSpace (c2 :: rest2)

/-- Does the character list contain two consecutive spaces? -/
def hasDoubleSpace : List Char → Bool
  | [] => false
  | [_] => false
  | c :: c2 :: rest2 =>
    if c = ' ' ∧ c2 = ' ' then true else hasDoubleSpace (c2 :: rest2)

/-- Does the character list contain three consecutive spaces? -/
def hasTripleSpace : List Char → Bool
  | [] => false
  | [_] => false
  | [_, _] => false
  | c :: c2 :: c3 :: rest3 =>
    if c = ' ' ∧ c2 = ' ' ∧ c3 = ' ' then true else hasTripleSpace (c2 :: c3 :: rest3)

/-- The string body of the notebook's `_clean_header`: umlaut translation,
newline→space, single-pass double-space collapse, strip, upper-case.
(Python `str.upper()` is modelled as ASCII upper-casing; after the umlaut
translation the headers of interest are ASCII.) -/
def cleanHeaderChars (l : List Char) : List Char :=
  (pyStripChars (collapseDoubleSpace ((l.map translateUmlaut).map newlineToSpace))).map
    Char.toUpper

/-- `_clean_header` from `_4_fz1.ipynb`: `None` passes through, other
values are cleaned as strings. -/
def _clean_header (s : Option String) : Option String :=
  match s with
  | none => none
  | some t => some (String.mk (cleanHeaderChars t.data))

/-- The worker of `_unique` from `_4_fz1.ipynb`: `seen` maps a name to the
counter stored in the Python dict (`seen[c] = 0` on first sight, incremented
on each repeat, the repeat being emitted as `c + str(seen[c])`). -/
def uniqueGo (seen : String → Option ℕ) : List String → List String
  | [] => []
  | c :: cs =>
    match seen c with
    | some k => (c ++ toString (k + 1)) :: uniqueGo (fun x => if x = c then some (k + 1) else seen x) cs
    | none => c :: uniqueGo (fun x => if x = c then some 0 else seen x) cs

/-- `_unique` from `_4_fz1.ipynb`: de-duplicate column names by suffixing
occurrence counters. -/
def _unique (cols : List String) : List String :=
  uniqueGo (fun _ => none) cols

/-- Specification-side restatement of the disambiguation rule, written from
the spec's words: the first occurrence of a name is kept as-is, the k-th
repeat occurrence gets the numeric suffix k, computed from the count of the
name among the already-processed prefix. Used to compare `_unique` against
the spec (refinement). -/
def uniqueSpecGo : List String → List String → List String
  | _, [] => []
  | pre, c :: cs =>
    (if pre.count c = 0 then c else c ++ toString (pre.count c)) :: uniqueSpecGo (pre ++ [c]) cs

/-- Entry point of the spec-side disambiguation rule. -/
def uniqueSpec (cols : List String) : List String :=
  uniqueSpecGo [] cols

/-- Numeric value of a digit list (most significant first). -/
def digitsVal (ds : List Char) : ℕ :=
  ds.foldl (fun a c => 10 * a + (c.toNat - 48)) 0

/-- Is every character an ASCII digit? -/
def allDigits (ds : List Char) : Bool :=
  ds.all Char.isDigit

/-- Split a character list at the first character satisfying `p`: returns
the part before it and, if found, the part after it. -/
def splitFirstBy (p : Char → Bool) : List Char → (List Char × Option (List Char))
  | [] => ([], none)
  | c :: cs =>
    if p c then ([], some cs)
    else
      let r := splitFirstBy p cs
      (c :: r.1, r.2)

/-- Split a leading `+`/`-` sign off a character list; the boolean is true
for a negative sign. -/
def splitSign : List Char → (Bool × List Char)
  | '+' :: cs => (false, cs)
  | '-' :: cs => (true, cs)
  | cs => (false, cs)

/-- Parse an unsigned decimal mantissa: digits, optionally with one dot,
at least one digit overall. Returns the digit value `n` and the fractional
length `k`, the mantissa value being `n / 10 ^ k`. -/
def parseMantissa (l : List Char) : Option (ℕ × ℕ) :=
  match splitFirstBy (fun c => c = '.') l with
  | (ip, none) =>
    if ip ≠ [] ∧ allDigits ip then some (digitsVal ip, 0) else none
  | (ip, some fp) =>
    if (ip ≠ [] ∨ fp ≠ []) ∧ allDigits ip ∧ allDigits fp then
      some (digitsVal (ip ++ fp), fp.length)
    else none

/-- Parse an exponent: optional sign, then a nonempty digit run. -/
def parseExp (l : List Char) : Option ℤ :=
  let s := splitSign l
  if s.2 ≠ [] ∧ allDigits s.2 then
    some (if s.1 then -(digitsVal s.2 : ℤ) else (digitsVal s.2 : ℤ))
  else none

/-- The rational `±(n / 10 ^ k) · 10 ^ z`, assembled with a single
`mkRat` so that it evaluates by kernel reduction. -/
def ratVal (neg : Bool) (n k : ℕ) (z : ℤ) : ℚ :=
  let sn : ℤ := if neg then -(n : ℤ) else (n : ℤ)
  let e : ℤ := z - (k : ℤ)
  if 0 ≤ e then mkRat (sn * (10 : ℤ) ^ e.toNat) 1
  else mkRat sn ((10 : ℕ) ^ (-e).toNat)

/-- Model of Python / pandas floating-point string parsing over exact
rationals: optional sign, decimal mantissa, optional `e`/`E` exponent.
(The special tokens `inf`/`nan` and underscore separators are outside the
model; no claim exercises them.) -/
def parseFloatChars (l : List Char) : Option ℚ :=
  let s := splitSign l
  match splitFirstBy (fun c => c = 'e' || c = 'E') s.2 with
  | (m, none) => (parseMantissa m).map (fun p => ratVal s.1 p.1 p.2 0)
  | (m, some e) =>
    match parseMantissa m, parseExp e with
    | some p, some z => some (ratVal s.1 p.1 p.2 z)
    | _, _ => none

/-- `float(s)` / `pd.to_numeric` on one string: surrounding whitespace is
ignored, failure yields `none` (with `errors="coerce"` that is `NaN`). -/
def pyFloat (s : String) : Option ℚ :=
  parseFloatChars (pyStripChars s.data)

/-- `.str.replace(r"\s|\.", "", regex=True)`: drop every whitespace
character and every literal dot. -/
def removeSpaceDot (s : String) : String :=
  String.mk (s.data.filter (fun c => !(pyIsSpace c || c = '.')))

/-- `.str.replace(",", ".", regex=False)`: every comma becomes a dot. -/
def commaToDot (s : String) : String :=
  String.mk (s.data.map (fun c => if c = ',' then '.' else c))

/-- `_to_float` from `src/unnamed/part_001`: exact-match placeholder
replacement (`"-"` / `"."` → missing), whitespace/dot removal, comma→dot,
then permissive float parsing (`errors="coerce"`). `none` in models the NA
entries of the pandas Series. -/
def _to_float (v : Option String) : Option ℚ :=
  match v with
  | none => none
  | some s =>
    if s = "-" ∨ s = "." then none
    else pyFloat (commaToDot (removeSpaceDot s))

namespace part_000

/-- `_to_float` from `src/unnamed/part_000`: strips first, masks a sole
ASCII hyphen / en dash / em dash (regex `^[-–—]$`) and a sole
dot to missing, then the same removal/substitution/parse chain. -/
def _to_float (v : Option String) : Option ℚ :=
  match v with
  | none => none
  | some s₀ =>
    let s := pyStrip s₀
    if s = "-" ∨ s = "–" ∨ s = "—" ∨ s = "." then none
    else pyFloat (commaToDot (removeSpaceDot s))

end part_000

/-- Does the string contain an ASCII hyphen anywhere? In
`df.replace({'-': pd.NA, ...}, regex=True)` the replacement value is not a
string, so pandas replaces the whole cell with NA whenever the regex `-`
matches anywhere in it (regex search, not full match). -/
def containsDash (s : String) : Bool :=
  s.data.any (fun c => c = '-')

/-- The inline numeric-coercion path of `fz1_1`/`fz1_2` applied to one cell
of a numeric column: `replace({'-': NA, r'^\.$': NA}, regex=True)` followed
by `pd.to_numeric(errors='coerce')`. Note: no thousands-separator removal
and no comma→dot substitution happens here. -/
def fz1_num_cell (c : Cell) : Option ℚ :=
  match c with
  | Cell.null => none
  | Cell.num q => some q
  | Cell.str s =>
    if containsDash s then none
    else if s = "." then none
    else pyFloat s

/-- `.mask(df[num_cols] == 0)`: exact-zero results become missing. -/
def maskZero (o : Option ℚ) : Option ℚ :=
  match o with
  | some q => if q = 0 then none else some q
  | none => none

/-- Numeric-column pipeline of the FZ-1 sheet parsers: inline coercion then
zero masking. -/
def fz1_num_masked (c : Cell) : Option ℚ :=
  maskZero (fz1_num_cell c)

/-- Is the cell missing? -/
def isNullCell (c : Cell) : Bool :=
  match c with
  | Cell.null => true
  | _ => false

/-- Cell of a row at column index `i` (missing when out of range). -/
def getCell (r : List Cell) (i : ℕ) : Cell :=
  r.getD i Cell.null

/-- Replace the cell of a row at column index `i`. -/
def setCell (r : List Cell) (i : ℕ) (v : Cell) : List Cell :=
  r.set i v

/-- Approximate model of Python `str(float)`. The exact shortest-roundtrip
float repr is not modelled; no claim depends on the rendering of numeric
cells to text. -/
def ratPyStr (q : ℚ) : String :=
  if q.den = 1 then toString q.num ++ ".0"
  else toString q.num ++ "/" ++ toString q.den

/-- Python `str()` of a cell, as produced by `astype(str)`: pandas missing
values print as `"nan"`. -/
def cellPyStr (c : Cell) : String :=
  match c with
  | Cell.null => "nan"
  | Cell.str s => s
  | Cell.num q => ratPyStr q

/-- ASCII upper-casing of a string. -/
def upperStr (s : String) : String :=
  String.mk (s.data.map Char.toUpper)

/-- Does `needle` occur as a contiguous run inside the character list? -/
def isSubChars (needle : List Char) : List Char → Bool
  | [] => needle.isEmpty
  | c :: cs => needle.isPrefixOf (c :: cs) || isSubChars needle cs

/-- Substring containment (`needle in hay` / `str.contains`). -/
def containsSub (hay needle : String) : Bool :=
  isSubChars needle.data hay.data

/-- The trash-row keyword alternatives of the FZ-1 regex
`INSGESAMT|HINWEIS|FLENSBURG|REVIDIERT|SONSTIGE`. -/
def trashKeywords : List String :=
  ["INSGESAMT", "HINWEIS", "FLENSBURG", "REVIDIERT", "SONSTIGE"]

/-- `df[seg].astype(str).str.contains(trash, case=False, na=False)`:
case-insensitive keyword-substring match on the string form of the cell. -/
def isTrash (c : Cell) : Bool :=
  trashKeywords.any (fun k => containsSub (upperStr (cellPyStr c)) k)

/-- `dropna(how="all")`: keep only rows having some non-missing cell. -/
def dropnaAll (rows : List (List Cell)) : List (List Cell) :=
  rows.filter (fun r => !(r.all isNullCell))

/-- Worker of the forward fill: `last` is the most recent non-missing value
seen in the grouping column `g`. -/
def ffillGo (g : ℕ) : Option Cell → List (List Cell) → List (List Cell)
  | _, [] => []
  | last, r :: rs =>
    match getCell r g with
    | Cell.null =>
      match last with
      | some v => setCell r g v :: ffillGo g (some v) rs
      | none => r :: ffillGo g none rs
    | v => r :: ffillGo g (some v) rs

/-- `df[seg_col] = df[seg_col].ffill()`: forward-fill the grouping column;
a leading missing value stays missing. -/
def ffillCol (g : ℕ) (rows : List (List Cell)) : List (List Cell) :=
  ffillGo g none rows

/-- Python `str.replace("UE", "U")`: single left-to-right pass. -/
def replUE : List Char → List Char
  | 'U' :: 'E' :: rest => 'U' :: replUE rest
  | c :: rest => c :: replUE rest
  | [] => []

/-- `df[seg] = df[seg].astype(str).str.replace("UE", "U", regex=False)`:
the grouping cell is turned into its string form (missing → `"nan"`) with
`UE` folded to `U`. -/
def ueStep (g : ℕ) (r : List Cell) : List Cell :=
  setCell r g (Cell.str (String.mk (replUE (cellPyStr (getCell r g)).data)))

/-- The discriminator filter `dropna(subset=[seg])` followed by
`df[seg].str.strip().ne("")`: missing cells are dropped; string cells must
be non-blank after trimming; non-string cells survive (`.str` accessor
yields NaN for them and `NaN != ""` holds). -/
def discrOk (c : Cell) : Bool :=
  match c with
  | Cell.null => false
  | Cell.str s => pyStrip s != ""
  | Cell.num _ => true

/-- The blanket `applymap` clean of the FZ-1 parsers:
`v.replace("  ", " ").strip().upper()` on string cells, identity
otherwise. -/
def applymapClean (c : Cell) : Cell :=
  match c with
  | Cell.str s =>
    Cell.str (String.mk ((pyStripChars (collapseDoubleSpace s.data)).map Char.toUpper))
  | c => c

/-- Back from the coercion result to a cell (missing stays missing). -/
def numToCell (o : Option ℚ) : Cell :=
  match o with
  | none => Cell.null
  | some q => Cell.num q

/-- Map a function receiving the column index over a row. -/
def mapWithIdx (f : ℕ → Cell → Cell) : ℕ → List Cell → List Cell
  | _, [] => []
  | i, c :: cs => f i c :: mapWithIdx f (i + 1) cs

/-- Steps 6–7 of the FZ-1 row cleaner on one row: columns from index
`numStart` on are numerically coerced and zero-masked
(`df[num_cols] = df[num_cols].replace(...).apply(pd.to_numeric, ...)`,
then `.mask(df[num_cols] == 0)`); the leading text columns are
untouched. -/
def fz1_coerce_row (numStart : ℕ) (r : List Cell) : List Cell :=
  mapWithIdx (fun i c => if numStart ≤ i then numToCell (fz1_num_masked c) else c) 0 r

/-- The row-cleaning pipeline shared by `fz1_1` and `fz1_2`, parameterised
by the grouping column index `g` (the `LAND` column), the discriminator
column index `d` (the `STATISTISCHE ...` column) and the first numeric
column index `numStart`: drop all-missing rows, forward-fill the grouping
column, drop trash rows, `UE`→`U` on the grouping column, drop rows with a
blank discriminator, blanket string clean, then numeric coercion with zero
masking. -/
def fz1_clean_rows (g d numStart : ℕ) (rows : List (List Cell)) : List (List Cell) :=
  let r1 := dropnaAll rows
  let r2 := ffillCol g r1
  let r3 := r2.filter (fun r => !(isTrash (getCell r g)))
  let r4 := r3.map (ueStep g)
  let r5 := r4.filter (fun r => discrOk (getCell r d))
  let r6 := r5.map (List.map applymapClean)
  r6.map (fz1_coerce_row numStart)

/-- A worksheet, as the grid of its cell values: Excel row `r` (1-based) is
list index `r - 1`, column `A` is index 0. -/
abbrev Sheet := List (List Cell)

/-- Value of worksheet cell at Excel row `r` (1-based) and column index
`c` (0-based, `A` = 0). -/
def wsCell (ws : Sheet) (r c : ℕ) : Cell :=
  getCell (ws.getD (r - 1) []) c

/-- `_col(ws, letter, r0, r1)` from `_4_fz1.ipynb`: the column values over
the inclusive row range. -/
def _col (ws : Sheet) (c r0 r1 : ℕ) : List Cell :=
  (List.range' r0 (r1 + 1 - r0)).map (fun r => wsCell ws r c)

/-- `_clean_header` on a raw cell value: `None` passes through, numbers go
through `str()`. -/
def cleanHeaderCell (c : Cell) : Option String :=
  match c with
  | Cell.null => none
  | Cell.str s => some (String.mk (cleanHeaderChars s.data))
  | Cell.num q => some (String.mk (cleanHeaderChars (ratPyStr q).data))

/-- Column name from a cleaned header value. A `None` header would become
the pandas column name `NaN`; it is modelled by the string `"None"` (no
claim exercises missing header cells). -/
def headerName (o : Option String) : String :=
  o.getD "None"

/-- Header coordinates `(column index, Excel row)` read by `fz1_1`:
`B9 D9 J8 K9 L9 M9 N9 O9 P9 Q9 R9 S9 T9 U9`. -/
def fz1_1_coords : List (ℕ × ℕ) :=
  [(1, 9), (3, 9), (9, 8), (10, 9), (11, 9), (12, 9), (13, 9), (14, 9),
   (15, 9), (16, 9), (17, 9), (18, 9), (19, 9), (20, 9)]

/-- Data columns read by `fz1_1`: `B D J K L M N O P Q R S T U`. -/
def fz1_1_cols : List ℕ :=
  [1, 3, 9, 10, 11, 12, 13, 14, 15, 16, 17, 18, 19, 20]

/-- Header coordinates read by `fz1_2`:
`B8 D8 E8 F9 G9 H9 I9 K9 L9 M9 N9 O9 P9 Q9 R9 V9`. -/
def fz1_2_coords : List (ℕ × ℕ) :=
  [(1, 8), (3, 8), (4, 8), (5, 9), (6, 9), (7, 9), (8, 9), (10, 9),
   (11, 9), (12, 9), (13, 9), (14, 9), (15, 9), (16, 9), (17, 9), (21, 9)]

/-- Data columns read by `fz1_2`: `B D E F G H I K L M N O P Q R V`. -/
def fz1_2_cols : List ℕ :=
  [1, 3, 4, 5, 6, 7, 8, 10, 11, 12, 13, 14, 15, 16, 17, 21]

/-- The de-duplicated column names of an FZ-1 sheet: headers read at the
configured coordinates, cleaned, then `_unique`. -/
def fz1_headers (ws : Sheet) (coords : List (ℕ × ℕ)) : List String :=
  _unique (coords.map (fun p => headerName (cleanHeaderCell (wsCell ws p.2 p.1))))

/-- First column whose name contains the needle
(`next(c for c in df.columns if needle in c)`); degenerates to the list
length when absent (the source would raise `StopIteration` there). -/
def findColIdx (names : List String) (needle : String) : ℕ :=
  names.findIdx (fun n => containsSub n needle)

/-- Common body of the FZ-1 sheet parsers: read the configured columns over
rows 10–500, then clean, with the grouping / discriminator columns located
by name substring as in the source (`_strip_cols` re-cleans the column
names first). -/
def fz1_sheet (coords : List (ℕ × ℕ)) (colIdxs : List ℕ) (ws : Sheet) : List (List Cell) :=
  let names := (fz1_headers ws coords).map (fun n => String.mk (cleanHeaderChars n.data))
  let rows := (List.range' 10 491).map (fun r => colIdxs.map (fun c => wsCell ws r c))
  fz1_clean_rows (findColIdx names "LAND") (findColIdx names "STATISTISCHE") 2 rows

/-- `fz1_1` from `_4_fz1.ipynb`. -/
def fz1_1 (ws : Sheet) : List (List Cell) :=
  fz1_sheet fz1_1_coords fz1_1_cols ws

/-- `fz1_2` from `_4_fz1.ipynb`. -/
def fz1_2 (ws : Sheet) : List (List Cell) :=
  fz1_sheet fz1_2_coords fz1_2_cols ws

/-- One source file as seen by the layout validator, for a fixed sub-sheet
number: its name and, when the target sub-sheet was found by
`_find_sheet`, that worksheet. -/
structure FZFile where
  name : String
  sheet : Option Sheet
deriving DecidableEq, Repr

/-- A validator finding, modelling one message appended to `issues` in
`check_fz1_layout`: a missing sub-sheet, a header divergence from the
reference file (the message embeds the found and reference name lists), or
an empty first data row. -/
inductive Issue where
  | missingSheet (file : String) (num : String)
  | headerMismatch (file : String) (num : String)
      (found ref : List (Option String)) (refFile : String)
  | emptyStartRow (file : String) (num : String) (row : ℕ)
deriving DecidableEq, Repr

/-- Python truthiness of a cell value, as used by
`any(ws[...].value for c in coords)`: `None`, `""` and `0` are falsy. -/
def truthyCell (c : Cell) : Bool :=
  match c with
  | Cell.null => false
  | Cell.str s => s != ""
  | Cell.num q => q != 0

/-- The cleaned header names of a worksheet at the configured coordinates
(`[_clean_header(ws[c].value) for c in coords]`). -/
def layoutNames (coords : List (ℕ × ℕ)) (ws : Sheet) : List (Option String) :=
  coords.map (fun p => cleanHeaderCell (wsCell ws p.2 p.1))

/-- The values of the configured data-start row at the coordinate column
letters (`ws[f"{c[0]}{r0}"].value for c in coords`). -/
def startRowVals (coords : List (ℕ × ℕ)) (r0 : ℕ) (ws : Sheet) : List Cell :=
  coords.map (fun p => wsCell ws r0 p.1)

/-- Per-file loop of `check_fz1_layout` for one sub-sheet number: `ref`
holds the reference header names and reference file name once established.
A missing sub-sheet is reported and processing continues; a header
mismatch is reported and processing continues; a start row with no truthy
value is reported. -/
def checkGo (num : String) (coords : List (ℕ × ℕ)) (r0 : ℕ)
    (ref : Option (List (Option String) × String)) : List FZFile → List Issue
  | [] => []
  | f :: fs =>
    match f.sheet with
    | none => Issue.missingSheet f.name num :: checkGo num coords r0 ref fs
    | some ws =>
      let names := layoutNames coords ws
      let rowIssue : List Issue :=
        if (startRowVals coords r0 ws).any truthyCell then []
        else [Issue.emptyStartRow f.name num r0]
      match ref with
      | none => rowIssue ++ checkGo num coords r0 (some (names, f.name)) fs
      | some rr =>
        (if names = rr.1 then rowIssue
         else Issue.headerMismatch f.name num names rr.1 rr.2 :: rowIssue) ++
          checkGo num coords r0 (some rr) fs

/-- `check_fz1_layout` from `_4_fz1.ipynb`, for one entry of `header_map`:
the source iterates the sorted file list, establishes the first found file
as reference and accumulates discrepancy messages without aborting. The
model takes the already-sorted file sequence and returns the issue list
(the source prints it). -/
def check_fz1_layout (num : String) (coords : List (ℕ × ℕ)) (r0 : ℕ)
    (files : List FZFile) : List Issue :=
  checkGo num coords r0 none files

/-- A pandas column dtype as relevant to the export step: text (`object`)
or numeric. -/
inductive Dtype where
  | obj : Dtype
  | numeric : Dtype
deriving DecidableEq, Repr

/-- One column of an accumulated series DataFrame. -/
structure DFColumn where
  name : String
  dtype : Dtype
  vals : List Cell
deriving DecidableEq, Repr

/-- `fillna("")` on one cell: missing becomes the empty string. -/
def fillNullEmpty (c : Cell) : Cell :=
  match c with
  | Cell.null => Cell.str ""
  | v => v

/-- The export-loop fill of `_4_fz1.ipynb`:
`obj_cols = df.select_dtypes(include="object").columns` followed by
`df[obj_cols] = df[obj_cols].fillna("")` — the columns whose name is among
the object-typed column names get their missing values replaced by the
empty string; all other columns are left as they are. -/
def export_fill (df : List DFColumn) : List DFColumn :=
  let objCols := (df.filter (fun c => c.dtype = Dtype.obj)).map (fun c => c.name)
  df.map (fun c =>
    if objCols.contains c.name then { c with vals := c.vals.map fillNullEmpty } else c)

/-- A source workbook: its named sub-sheets in file order. -/
structure Workbook where
  sheets : List (String × Sheet)
deriving DecidableEq, Repr

/-- Sheet of a workbook by exact name (`wb[sname]`); degenerate empty grid
when absent (the orchestrator only looks up names found by
`_find_sheet`). -/
def getSheet (wb : Workbook) (name : String) : Sheet :=
  (((wb.sheets.find? (fun p => p.1 == name)).map (fun p => p.2)).getD [])

/-- The sheet-name pattern `^FZ\s*1\.{num}$` (case-insensitive) applied to
the stripped sheet name, as compiled in `_find_sheet`. -/
def fzSheetName (num : String) (name : String) : Bool :=
  match (pyStripChars name.data).map Char.toUpper with
  | 'F' :: 'Z' :: rest =>
    (rest.dropWhile (fun c => pyIsSpace c)) == ('1' :: '.' :: num.data)
  | _ => false

/-- `_find_sheet` from `_4_fz1.ipynb`: first sheet name matching the
pattern, else `None`. -/
def _find_sheet (wb : Workbook) (num : String) : Option String :=
  (wb.sheets.find? (fun p => fzSheetName num p.1)).map (fun p => p.1)

/-- First run of four consecutive ASCII digits in a character list. -/
def findFourDigits : List Char → Option (List Char)
  | [] => none
  | c0 :: rest =>
    match rest with
    | c1 :: c2 :: c3 :: _ =>
      if c0.isDigit && c1.isDigit && c2.isDigit && c3.isDigit then
        some [c0, c1, c2, c3]
      else findFourDigits rest
    | _ => none

/-- `_date_from_fname` from `_4_fz1.ipynb`: `re.search(r"(\d{4})", name)`.
The source raises on a filename without four consecutive digits; the model
returns `none` there (the orchestrator substitutes `""`, a case the glob
pattern `fz1_*.xlsx` with year-named files never produces). -/
def _date_from_fname (name : String) : Option String :=
  (findFourDigits name.data).map String.mk

/-- `sheet_parsers = {'1': fz1_1, '2': fz1_2}` (insertion order). -/
def sheet_parsers : List (String × (Sheet → List (List Cell))) :=
  [("1", fz1_1), ("2", fz1_2)]

/-- `df.insert(0, "DATE", date)`: prepend the period tag column. -/
def insertDate (date : String) (rows : List (List Cell)) : List (List Cell) :=
  rows.map (fun r => Cell.str date :: r)

/-- `globals_by_sheet[num] = pd.concat([globals_by_sheet[num], df], ...)`:
append rows to the accumulator of one sub-sheet number. -/
def addRows (accums : List (String × List (List Cell))) (num : String)
    (rows : List (List Cell)) : List (String × List (List Cell)) :=
  accums.map (fun p => if p.1 = num then (p.1, p.2 ++ rows) else p)

/-- Processing of a single workbook file in the main loop: derive the date
tag, then for each configured sub-sheet locate it (skipping when absent),
parse it, prepend the date column and accumulate. -/
def processFile (content : String → Workbook)
    (accums : List (String × List (List Cell))) (name : String) :
    List (String × List (List Cell)) :=
  let wb := content name
  let date := (_date_from_fname name).getD ""
  sheet_parsers.foldl
    (fun acc p =>
      match _find_sheet wb p.1 with
      | none => acc
      | some sname => addRows acc p.1 (insertDate date (p.2 (getSheet wb sname))))
    accums

/-- CSV rendering of one cell: missing renders as the empty field (pandas
`to_csv` renders NaN as empty, and the export loop has already filled text
missings with `""`). -/
def renderCell (c : Cell) : String :=
  match c with
  | Cell.null => ""
  | Cell.str s => s
  | Cell.num q => ratPyStr q

/-- CSV rendering of one row. -/
def renderRow (r : List Cell) : String :=
  String.intercalate "," (r.map renderCell)

/-- CSV rendering of an accumulated series. -/
def renderCsv (rows : List (List Cell)) : String :=
  String.intercalate "\n" (rows.map renderRow)

/-- `sorted(DATA_DIR.glob("fz1_*.xlsx"))`: the directory listing is sorted
before processing, so the processing order depends only on the multiset of
file names, not on the enumeration order the filesystem happens to
return. -/
def sortedListing (listing : List String) : List String :=
  Multiset.sort (fun a b : String => a ≤ b) (listing : Multiset String)

/-- The full per-series orchestration of `_4_fz1.ipynb` as a function of
the input files: sort the listing, fold the per-file processing over it
starting from empty accumulators, then export one named CSV artifact per
sub-sheet number. -/
def orchestrate (content : String → Workbook) (listing : List String) :
    List (String × String) :=
  let accums :=
    (sortedListing listing).foldl (processFile content)
      (sheet_parsers.map (fun p => (p.1, ([] : List (List Cell)))))
  accums.map (fun p => ("fz_1." ++ p.1 ++ "_raw.csv", renderCsv p.2))

/-- Junk column used as a `getD` default. -/
def dummyCol : DFColumn :=
  { name := "", dtype := Dtype.obj, vals := [] }

/-- Cleaned header names of the target sub-sheet of a file, when
present. -/
def fileLayoutNames (coords : List (ℕ × ℕ)) (f : FZFile) : Option (List (Option String)) :=
  f.sheet.map (layoutNames coords)

/-- Test fixture: a two-coordinate header layout (columns A and B of Excel
row 1) used in the concrete validator scenarios. -/
def coordsAB : List (ℕ × ℕ) :=
  [(0, 1), (1, 1)]

/-- Test fixture: a sheet with header row `H1 H2` and a truthy first data
cell at row 2. -/
def wsHdrA : Sheet :=
  [[Cell.str "H1", Cell.str "H2"], [Cell.str "x", Cell.null]]

/-- Test fixture: like `wsHdrA` but with the second header value changed
to `X9`. -/
def wsHdrC : Sheet :=
  [[Cell.str "H1", Cell.str "X9"], [Cell.str "x", Cell.null]]

/-- Test fixture files for the validator scenarios. -/
def fileA : FZFile :=
  { name := "a.xlsx", sheet := some wsHdrA }

/-- Test fixture: second file, identical layout to `fileA`. -/
def fileB : FZFile :=
  { name := "b.xlsx", sheet := some wsHdrA }

/-- Test fixture: third file, one differing header value. -/
def fileC : FZFile :=
  { name := "c.xlsx", sheet := some wsHdrC }

/-- Test fixture: fourth file, same differing header value as `fileC`. -/
def fileD : FZFile :=
  { name := "d.xlsx", sheet := some wsHdrC }

/-! ## Theorems -/

lemma uniqueGo_eq_specGo :
    ∀ (cs pre : List String) (seen : String → Option ℕ),
      (∀ x, seen x = if pre.count x = 0 then none else some (pre.count x - 1)) →
      uniqueGo seen cs = uniqueSpecGo pre cs := by
  intro cs
  induction cs with
  | nil => intro pre seen h; rfl
  | cons c cs ih =>
    intro pre seen h
    have hc := h c
    by_cases h0 : pre.count c = 0
    · rw [if_pos h0] at hc
      simp only [uniqueGo, hc, uniqueSpecGo, if_pos h0]
      congr 1
      apply ih
      intro x
      by_cases hx : x = c
      · subst hx
        simp [List.count_append, h0]
      · simp [List.count_append, List.count_cons, hx, h x]
    · rw [if_neg h0] at hc
      have hpos : 0 < pre.count c := Nat.pos_of_ne_zero h0
      have hsucc : pre.count c - 1 + 1 = pre.count c := Nat.succ_pred_eq_of_pos hpos
      simp only [uniqueGo, hc, uniqueSpecGo, if_neg h0, hsucc]
      congr 1
      apply ih
      intro x
      by_cases hx : x = c
      · subst hx
        simp [List.count_append, hsucc]
      · simp [List.count_append, List.count_cons, hx, h x]

/-- C3: `_unique` keeps the first occurrence of each name unchanged and
appends to the k-th repeat occurrence the numeric suffix k (second
occurrence gets "1", third "2", and so on — `uniqueSpec` is that rule
written from the spec's words), and on `["X", "X", "Y", "X"]` it yields
exactly `["X", "X1", "Y", "X2"]`. Determinism across runs holds because
`_unique` is a pure function of its input sequence. -/
theorem C3_unique_disambiguation :
    (∀ cols : List String, _unique cols = uniqueSpec cols) ∧
    _unique ["X", "X", "Y", "X"] = ["X", "X1", "Y", "X2"] := by
  constructor
  · intro cols
    apply uniqueGo_eq_specGo
    intro x
    simp
  · decide

/-- C9: the output of `_unique` is not guaranteed pairwise distinct: on
`["X", "X", "X1"]` the suffixed second occurrence collides with the literal
name `"X1"`, giving `["X", "X1", "X1"]`. -/
theorem C9_unique_duplicate_output :
    _unique ["X", "X", "X1"] = ["X", "X1", "X1"] ∧
    ¬ (_unique ["X", "X", "X1"]).Nodup := by
  exact ⟨by decide, by decide⟩

lemma collapseDoubleSpace_headq (l : List Char) :
    (collapseDoubleSpace l).head? = l.head? := by
  rcases l with _ | ⟨c, _ | ⟨c2, rest⟩⟩
  · rfl
  · rfl
  · simp only [collapseDoubleSpace]
    split_ifs with h
    · simp [h.1]
    · rfl

lemma hasTripleSpace_tail (x : Char) (xs : List Char)
    (h : hasTripleSpace (x :: xs) = false) : hasTripleSpace xs = false := by
  rcases xs with _ | ⟨x2, _ | ⟨x3, rest⟩⟩
  · rfl
  · rfl
  · simp only [hasTripleSpace] at h
    split_ifs at h with hc
    exact h

lemma collapse_no_double_aux :
    ∀ (n : ℕ) (l : List Char), l.length ≤ n → hasTripleSpace l = false →
      hasDoubleSpace (collapseDoubleSpace l) = false := by
  intro n
  induction n with
  | zero =>
    intro l hl _
    rcases l with _ | ⟨c, rest⟩
    · rfl
    · simp at hl
  | succ n ih =>
    intro l hl ht
    rcases l with _ | ⟨c, _ | ⟨c2, rest⟩⟩
    · rfl
    · rfl
    · simp only [collapseDoubleSpace]
      split_ifs with hcc
      · obtain ⟨hc, hc2⟩ := hcc
        have ht2 : hasTripleSpace rest = false :=
          hasTripleSpace_tail _ _ (hasTripleSpace_tail _ _ ht)
        have hlen : rest.length ≤ n := by
          simp only [List.length_cons] at hl
          omega
        have hcr : hasDoubleSpace (collapseDoubleSpace rest) = false := ih rest hlen ht2
        rcases rest with _ | ⟨c3, rest3⟩
        · rfl
        · subst hc hc2
          simp only [hasTripleSpace] at ht
          split_ifs at ht with h3
          have hc3 : c3 ≠ ' ' := fun he => h3 (by simp [he])
          have hh := collapseDoubleSpace_headq (c3 :: rest3)
          rcases hcol : collapseDoubleSpace (c3 :: rest3) with _ | ⟨d, ds⟩
          · rw [hcol] at hh
            simp at hh
          · rw [hcol] at hh hcr
            have hd : d = c3 := by
              simpa using hh
            simp only [hasDoubleSpace]
            rw [if_neg]
            · exact hcr
            · intro hdd
              exact hc3 (hd ▸ hdd.2)
      · have ht2 : hasTripleSpace (c2 :: rest) = false := hasTripleSpace_tail _ _ ht
        have hlen : (c2 :: rest).length ≤ n := by
          simp only [List.length_cons] at hl ⊢
          omega
        have hcr : hasDoubleSpace (collapseDoubleSpace (c2 :: rest)) = false :=
          ih _ hlen ht2
        have hh := collapseDoubleSpace_headq (c2 :: rest)
        rcases hcol : collapseDoubleSpace (c2 :: rest) with _ | ⟨d, ds⟩
        · rw [hcol] at hh
          simp at hh
        · rw [hcol] at hh hcr
          have hd : d = c2 := by
            simpa using hh
          simp only [hasDoubleSpace]
          rw [if_neg]
          · exact hcr
          · intro hdd
            exact hcc ⟨hdd.1, hd ▸ hdd.2⟩

/-- C4: the header whitespace collapse is a single pass. Runs of at most
two consecutive spaces are fully collapsed (an input with no triple space
yields an output with no double space), but a header with three interior
spaces — `"A   B"` — normalizes to `"A  B"`, whose character list still
contains two consecutive spaces: the collapse is not iterated to a fixed
point. -/
theorem C4_single_pass_space_collapse :
    (∀ l : List Char, hasTripleSpace l = false →
       hasDoubleSpace (collapseDoubleSpace l) = false) ∧
    _clean_header (some "A  B") = some "A B" ∧
    _clean_header (some "A   B") = some "A  B" ∧
    hasDoubleSpace (cleanHeaderChars ("A   B").data) = true := by
  refine ⟨fun l ht => collapse_no_double_aux l.length l le_rfl ht, by decide, by decide, by decide⟩

/-- Witness for C4 at a concrete input. -/
theorem C4_single_pass_space_collapse_witness :
    hasTripleSpace ("A  B").data = false ∧
    hasDoubleSpace (collapseDoubleSpace ("A  B").data) = false :=
  ⟨by decide, C4_single_pass_space_collapse.1 ("A  B").data (by decide)⟩

/-- C2: the numeric coercer maps the German-formatted `"1.234,56"` to
1234.56 (the rational 123456/100), maps `"-"`, `"."` and `""` to missing,
maps `"42"` to 42, and — after placeholder replacement, whitespace/dot
removal and comma→dot substitution — any string that still fails to parse
becomes missing rather than raising. Stated for `_to_float` of
`src/unnamed/part_001` and for the stripping variant of
`src/unnamed/part_000`. -/
theorem C2_numeric_coercer :
    _to_float (some "1.234,56") = some (1234.56 : ℚ) ∧
    _to_float (some "-") = none ∧
    _to_float (some ".") = none ∧
    _to_float (some "") = none ∧
    _to_float (some "42") = some 42 ∧
    part_000._to_float (some "1.234,56") = some (1234.56 : ℚ) ∧
    part_000._to_float (some "-") = none ∧
    part_000._to_float (some ".") = none ∧
    part_000._to_float (some "") = none ∧
    part_000._to_float (some "42") = some 42 ∧
    (∀ s : String, pyFloat (commaToDot (removeSpaceDot s)) = none →
      _to_float (some s) = none) ∧
    (∀ s : String, pyFloat (commaToDot (removeSpaceDot (pyStrip s))) = none →
      part_000._to_float (some s) = none) := by
  refine ⟨?_, by decide, by decide, by decide, by decide, ?_, by decide, by decide,
    by decide, by decide, ?_, ?_⟩
  · have h : _to_float (some "1.234,56") = some (mkRat 123456 100) := by decide
    rw [h]
    norm_num
  · have h : part_000._to_float (some "1.234,56") = some (mkRat 123456 100) := by decide
    rw [h]
    norm_num
  · intro s hs
    by_cases hp : s = "-" ∨ s = "."
    · simp [_to_float, hp]
    · simp [_to_float, hp, hs]
  · intro s hs
    by_cases hp : pyStrip s = "-" ∨ pyStrip s = "–" ∨ pyStrip s = "—" ∨ pyStrip s = "."
    · simp [part_000._to_float, hp]
    · simp [part_000._to_float, hp, hs]

/-- Witness for C2: an unparseable token coerces to missing. -/
theorem C2_numeric_coercer_witness :
    _to_float (some "N/A") = none ∧ part_000._to_float (some "N/A") = none :=
  ⟨C2_numeric_coercer.2.2.2.2.2.2.2.2.2.2.1 "N/A" (by decide),
   C2_numeric_coercer.2.2.2.2.2.2.2.2.2.2.2 "N/A" (by decide)⟩

/-- C10: the inline coercion path of the FZ-1 parsers does not remove
thousands separators and does not substitute comma by dot, so the
German-formatted `"1.234,56"` coerces to missing there (both in a raw cell
and in a numeric column of a cleaned row), while the shared `_to_float`
coercer of the CSV scripts parses it to 1234.56. -/
theorem C10_fz1_inline_no_german_parse :
    fz1_num_cell (Cell.str "1.234,56") = none ∧
    fz1_num_masked (Cell.str "1.234,56") = none ∧
    getCell (fz1_coerce_row 2 [Cell.str "SH", Cell.str "01000", Cell.str "1.234,56"]) 2 =
      Cell.null ∧
    _to_float (some "1.234,56") = some (1234.56 : ℚ) := by
  refine ⟨by decide, by decide, by decide, ?_⟩
  have h : _to_float (some "1.234,56") = some (mkRat 123456 100) := by decide
  rw [h]
  norm_num

lemma mapWithIdx_length (f : ℕ → Cell → Cell) :
    ∀ (r : List Cell) (s : ℕ), (mapWithIdx f s r).length = r.length := by
  intro r
  induction r with
  | nil => intro s; rfl
  | cons c cs ih =>
    intro s
    simp only [mapWithIdx, List.length_cons, ih]

lemma mapWithIdx_getD (f : ℕ → Cell → Cell) :
    ∀ (r : List Cell) (s i : ℕ),
      (mapWithIdx f s r).getD i Cell.null =
        if i < r.length then f (s + i) (r.getD i Cell.null) else Cell.null := by
  intro r
  induction r with
  | nil =>
    intro s i
    simp [mapWithIdx]
  | cons c cs ih =>
    intro s i
    cases i with
    | zero =>
      simp [mapWithIdx]
    | succ j =>
      simp only [mapWithIdx, List.getD_cons_succ, ih (s + 1) j, List.length_cons]
      have harith : s + 1 + j = s + (j + 1) := by omega
      rw [harith]
      by_cases hj : j < cs.length
      · rw [if_pos hj, if_pos (by omega)]
      · rw [if_neg hj, if_neg (by omega)]

/-- C1: zero masking is a field-specific policy, not a property of numeric
coercion in general. In the FZ-1 sheet cleaners, a designated numeric
column (index ≥ `numStart`) maps an exact-zero coercion result to missing
and keeps every nonzero result, the leading text columns are untouched by
the coercion/mask step — while the `_to_float` coercers used for the other
record sets of the repository keep `"0"` as the number 0. -/
theorem C1_zero_mask_field_specific :
    (∀ c : Cell, fz1_num_cell c = some 0 → fz1_num_masked c = none) ∧
    (∀ (c : Cell) (q : ℚ), fz1_num_cell c = some q → q ≠ 0 → fz1_num_masked c = some q) ∧
    (∀ (numStart : ℕ) (r : List Cell) (i : ℕ), i < numStart →
       getCell (fz1_coerce_row numStart r) i = getCell r i) ∧
    (∀ (numStart : ℕ) (r : List Cell) (i : ℕ), numStart ≤ i → i < r.length →
       getCell (fz1_coerce_row numStart r) i = numToCell (fz1_num_masked (getCell r i))) ∧
    _to_float (some "0") = some 0 ∧
    part_000._to_float (some "0") = some 0 := by
  refine ⟨?_, ?_, ?_, ?_, by decide, by decide⟩
  · intro c h
    simp [fz1_num_masked, maskZero, h]
  · intro c q h hq
    simp [fz1_num_masked, maskZero, h, hq]
  · intro ns r i hi
    simp only [getCell, fz1_coerce_row, mapWithIdx_getD, Nat.zero_add]
    by_cases hl : i < r.length
    · rw [if_pos hl, if_neg (by omega)]
    · rw [if_neg hl, List.getD_eq_default _ _ (by omega)]
  · intro ns r i hge hl
    simp only [getCell, fz1_coerce_row, mapWithIdx_getD, Nat.zero_add]
    rw [if_pos hl, if_pos hge]

/-- Witness for C1 at concrete cells and rows. -/
theorem C1_zero_mask_field_specific_witness :
    fz1_num_masked (Cell.str "0") = none ∧
    fz1_num_masked (Cell.num 5) = some 5 ∧
    getCell (fz1_coerce_row 2 [Cell.str "BAYERN", Cell.str "09", Cell.str "0"]) 1 =
      getCell [Cell.str "BAYERN", Cell.str "09", Cell.str "0"] 1 ∧
    getCell (fz1_coerce_row 2 [Cell.str "BAYERN", Cell.str "09", Cell.str "0"]) 2 =
      numToCell (fz1_num_masked
        (getCell [Cell.str "BAYERN", Cell.str "09", Cell.str "0"] 2)) :=
  ⟨C1_zero_mask_field_specific.1 (Cell.str "0") (by decide),
   C1_zero_mask_field_specific.2.1 (Cell.num 5) 5 (by decide) (by norm_num),
   C1_zero_mask_field_specific.2.2.1 2 [Cell.str "BAYERN", Cell.str "09", Cell.str "0"] 1
     (by decide),
   C1_zero_mask_field_specific.2.2.2.1 2 [Cell.str "BAYERN", Cell.str "09", Cell.str "0"] 2
     (by decide) (by decide)⟩

lemma map_getD_col (g : DFColumn → DFColumn) :
    ∀ (l : List DFColumn) (i : ℕ), i < l.length →
      (l.map g).getD i dummyCol = g (l.getD i dummyCol) := by
  intro l
  induction l with
  | nil =>
    intro i hi
    simp at hi
  | cons c cs ih =>
    intro i hi
    cases i with
    | zero => simp
    | succ j =>
      simp only [List.map_cons, List.getD_cons_succ]
      exact ih j (by simpa using hi)

/-- C6: in the export step, every missing value of a text-typed (`object`)
column is replaced by the empty string while numeric-typed columns —
including their missing markers — are left unchanged. The name-uniqueness
hypothesis reflects pandas column selection by name
(`df[obj_cols] = df[obj_cols].fillna("")`). -/
theorem C6_export_fill_text_only :
    fillNullEmpty Cell.null = Cell.str "" ∧
    (∀ v : Cell, v ≠ Cell.null → fillNullEmpty v = v) ∧
    ∀ df : List DFColumn, (df.map (fun c => c.name)).Nodup →
      (export_fill df).length = df.length ∧
      ∀ i : ℕ, i < df.length →
        ((df.getD i dummyCol).dtype = Dtype.numeric →
           (export_fill df).getD i dummyCol = df.getD i dummyCol) ∧
        ((df.getD i dummyCol).dtype = Dtype.obj →
           (export_fill df).getD i dummyCol =
             { df.getD i dummyCol with
                 vals := (df.getD i dummyCol).vals.map fillNullEmpty }) := by
  refine ⟨rfl, ?_, ?_⟩
  · intro v hv
    cases v with
    | null => exact absurd rfl hv
    | str s => rfl
    | num q => rfl
  · intro df hnd
    constructor
    · simp [export_fill]
    · intro i hi
      have hmem : df.getD i dummyCol ∈ df := by
        rw [List.getD_eq_getElem df dummyCol hi]
        exact List.getElem_mem hi
      have hmap : (export_fill df).getD i dummyCol =
          (fun c =>
            if ((df.filter (fun c => c.dtype = Dtype.obj)).map
                  (fun c => c.name)).contains c.name then
              { c with vals := c.vals.map fillNullEmpty }
            else c) (df.getD i dummyCol) :=
        map_getD_col _ df i hi
      constructor
      · intro hnum
        have hncond : ¬ (((df.filter (fun c => c.dtype = Dtype.obj)).map
            (fun c => c.name)).contains (df.getD i dummyCol).name = true) := by
          intro hcontains
          have hmem2 : (df.getD i dummyCol).name ∈
              (df.filter (fun c => c.dtype = Dtype.obj)).map (fun c => c.name) :=
            List.elem_iff.mp hcontains
          obtain ⟨c2, hc2mem, hc2name⟩ := List.mem_map.mp hmem2
          have hc2 := List.mem_filter.mp hc2mem
          have heq : c2 = df.getD i dummyCol :=
            List.inj_on_of_nodup_map hnd hc2.1 hmem hc2name
          rw [heq] at hc2
          rw [hnum] at hc2
          simp at hc2
        rw [hmap]
        dsimp only
        rw [if_neg hncond]
      · intro hobj
        have hcond : ((df.filter (fun c => c.dtype = Dtype.obj)).map
            (fun c => c.name)).contains (df.getD i dummyCol).name = true := by
          apply List.elem_iff.mpr
          apply List.mem_map.mpr
          refine ⟨df.getD i dummyCol, ?_, rfl⟩
          apply List.mem_filter.mpr
          exact ⟨hmem, by simpa using hobj⟩
        rw [hmap]
        dsimp only
        rw [if_pos hcond]

/-- Witness for C6 on a concrete two-column frame. -/
theorem C6_export_fill_text_only_witness :
    fillNullEmpty (Cell.str "A") = Cell.str "A" ∧
    (export_fill
      [{ name := "LAND", dtype := Dtype.obj, vals := [Cell.str "BAYERN", Cell.null] },
       { name := "PKW", dtype := Dtype.numeric, vals := [Cell.num 3, Cell.null] }]).getD 1
        dummyCol =
      ([{ name := "LAND", dtype := Dtype.obj, vals := [Cell.str "BAYERN", Cell.null] },
        { name := "PKW", dtype := Dtype.numeric, vals := [Cell.num 3, Cell.null] }]).getD 1
        dummyCol :=
  ⟨C6_export_fill_text_only.2.1 (Cell.str "A") (by decide),
   (((C6_export_fill_text_only.2.2
      [{ name := "LAND", dtype := Dtype.obj, vals := [Cell.str "BAYERN", Cell.null] },
       { name := "PKW", dtype := Dtype.numeric, vals := [Cell.num 3, Cell.null] }]
      (by decide)).2 1 (by decide)).1 (by decide))⟩

lemma getCell_setCell_ne :
    ∀ (r : List Cell) (i j : ℕ) (v : Cell), i ≠ j →
      getCell (setCell r i v) j = getCell r j := by
  intro r
  induction r with
  | nil =>
    intro i j v h
    rfl
  | cons c cs ih =>
    intro i j v h
    cases i with
    | zero =>
      cases j with
      | zero => exact absurd rfl h
      | succ je => simp [getCell, setCell, List.set]
    | succ ie =>
      cases j with
      | zero => simp [getCell, setCell, List.set]
      | succ je =>
        simp only [getCell, setCell, List.set, List.getD_cons_succ]
        exact ih ie je v (by omega)

/-- C7: when the first row of the record set (after the all-missing-row
drop) has a missing grouping-column value, the forward fill leaves that
value missing, and the row is retained by all remaining cleaning steps
provided its discriminator column is non-blank: the cleaned output starts
with the processed form of that row. -/
theorem C7_leading_null_grouping_row_retained :
    ∀ (g d numStart : ℕ) (r₀ : List Cell) (rest : List (List Cell)),
      g ≠ d →
      r₀.all isNullCell = false →
      getCell r₀ g = Cell.null →
      discrOk (getCell r₀ d) = true →
      getCell ((ffillCol g (dropnaAll (r₀ :: rest))).headD []) g = Cell.null ∧
      ∃ r' out, fz1_clean_rows g d numStart (r₀ :: rest) = r' :: out := by
  intro g d ns r₀ rest hgd hall hg hdis
  have h1 : dropnaAll (r₀ :: rest) = r₀ :: dropnaAll rest := by
    unfold dropnaAll
    rw [List.filter_cons_of_pos]
    simp [hall]
  have h2 : ffillCol g (dropnaAll (r₀ :: rest)) = r₀ :: ffillGo g none (dropnaAll rest) := by
    rw [h1]
    unfold ffillCol
    simp only [ffillGo, hg]
  constructor
  · rw [h2]
    simpa using hg
  · have hpipe : fz1_clean_rows g d ns (r₀ :: rest) =
        (((((ffillCol g (dropnaAll (r₀ :: rest))).filter
              (fun r => !(isTrash (getCell r g)))).map (ueStep g)).filter
              (fun r => discrOk (getCell r d))).map (List.map applymapClean)).map
              (fz1_coerce_row ns) := rfl
    have hptrash : (!(isTrash (getCell r₀ g))) = true := by
      rw [hg]
      decide
    have hdis2 : discrOk (getCell (ueStep g r₀) d) = true := by
      unfold ueStep
      rw [getCell_setCell_ne _ _ _ _ hgd]
      exact hdis
    have hfc1 : List.filter (fun r => !isTrash (getCell r g))
          (r₀ :: ffillGo g none (dropnaAll rest)) =
        r₀ :: List.filter (fun r => !isTrash (getCell r g)) (ffillGo g none (dropnaAll rest)) :=
      List.filter_cons_of_pos hptrash
    have hfc2 : List.filter (fun r => discrOk (getCell r d))
          (ueStep g r₀ :: List.map (ueStep g)
            (List.filter (fun r => !isTrash (getCell r g)) (ffillGo g none (dropnaAll rest)))) =
        ueStep g r₀ :: List.filter (fun r => discrOk (getCell r d))
          (List.map (ueStep g)
            (List.filter (fun r => !isTrash (getCell r g)) (ffillGo g none (dropnaAll rest)))) :=
      List.filter_cons_of_pos hdis2
    rw [hpipe, h2, hfc1, List.map_cons, hfc2, List.map_cons, List.map_cons]
    exact ⟨_, _, rfl⟩

/-- Witness for C7 on a one-row record set whose grouping cell is missing
and whose discriminator is non-blank. -/
theorem C7_leading_null_grouping_row_retained_witness :
    getCell ((ffillCol 0 (dropnaAll [[Cell.null, Cell.str "01000", Cell.str "7"]])).headD [])
        0 = Cell.null ∧
    ∃ r' out,
      fz1_clean_rows 0 1 2 [[Cell.null, Cell.str "01000", Cell.str "7"]] = r' :: out :=
  C7_leading_null_grouping_row_retained 0 1 2 [Cell.null, Cell.str "01000", Cell.str "7"] []
    (by decide) (by decide) (by decide) (by decide)

lemma checkGo_with_ref (num : String) (coords : List (ℕ × ℕ)) (r0 : ℕ)
    (rn : List (Option String)) (rf : String) :
    ∀ fs : List FZFile,
      (∀ f ∈ fs, ∃ ws, f.sheet = some ws ∧
         (startRowVals coords r0 ws).any truthyCell = true) →
      checkGo num coords r0 (some (rn, rf)) fs =
        (fs.filter (fun f => fileLayoutNames coords f != some rn)).map
          (fun f => Issue.headerMismatch f.name num ((fileLayoutNames coords f).getD [])
            rn rf) := by
  intro fs
  induction fs with
  | nil => intro h; rfl
  | cons f fs ih =>
    intro h
    obtain ⟨ws, hws, hrow⟩ := h f (List.mem_cons_self f fs)
    have hrest := fun f2 hf2 => h f2 (List.mem_cons_of_mem f hf2)
    by_cases hn : layoutNames coords ws = rn
    · simp only [checkGo, hws, hrow, if_true, hn, ih hrest, List.filter_cons,
        fileLayoutNames, Option.map_some]
      simp [hn]
    · simp only [checkGo, hws, hrow, ih hrest, List.filter_cons,
        fileLayoutNames, Option.map_some]
      simp [hn, hws, fileLayoutNames]

/-- C5: the layout validator. In general, once the first file (with its
sub-sheet present and a non-empty start row) establishes the reference,
the issue list over well-formed files is exactly one header-mismatch
entry — naming the file and carrying the found and reference header
lists — per subsequent file whose cleaned headers differ from the
reference; in particular two identical files yield an empty list, a third
file with one differing header value yields exactly one entry naming that
file, and a mismatch never aborts processing (a fourth mismatching file
still contributes its own entry). -/
theorem C5_layout_validator :
    (∀ (num : String) (coords : List (ℕ × ℕ)) (r0 : ℕ) (f₁ : FZFile)
       (fs : List FZFile) (ws₁ : Sheet),
       f₁.sheet = some ws₁ →
       (startRowVals coords r0 ws₁).any truthyCell = true →
       (∀ f ∈ fs, ∃ ws, f.sheet = some ws ∧
          (startRowVals coords r0 ws).any truthyCell = true) →
       check_fz1_layout num coords r0 (f₁ :: fs) =
         (fs.filter (fun f => fileLayoutNames coords f !=
             some (layoutNames coords ws₁))).map
           (fun f => Issue.headerMismatch f.name num ((fileLayoutNames coords f).getD [])
              (layoutNames coords ws₁) f₁.name)) ∧
    check_fz1_layout "1" coordsAB 2 [fileA, fileB] = [] ∧
    check_fz1_layout "1" coordsAB 2 [fileA, fileB, fileC] =
      [Issue.headerMismatch "c.xlsx" "1" [some "H1", some "X9"] [some "H1", some "H2"]
        "a.xlsx"] ∧
    check_fz1_layout "1" coordsAB 2 [fileA, fileB, fileC, fileD] =
      [Issue.headerMismatch "c.xlsx" "1" [some "H1", some "X9"] [some "H1", some "H2"]
        "a.xlsx",
       Issue.headerMismatch "d.xlsx" "1" [some "H1", some "X9"] [some "H1", some "H2"]
        "a.xlsx"] := by
  refine ⟨?_, by decide, by decide, by decide⟩
  intro num coords r0 f₁ fs ws₁ hws hrow hrest
  unfold check_fz1_layout
  simp only [checkGo, hws, hrow, if_true]
  rw [checkGo_with_ref num coords r0 (layoutNames coords ws₁) f₁.name fs hrest]
  simp

/-- Witness for C5: the general characterization applied to the concrete
three-file scenario. -/
theorem C5_layout_validator_witness :
    check_fz1_layout "1" coordsAB 2 (fileA :: [fileB, fileC]) =
      ([fileB, fileC].filter (fun f => fileLayoutNames coordsAB f !=
          some (layoutNames coordsAB wsHdrA))).map
        (fun f => Issue.headerMismatch f.name "1" ((fileLayoutNames coordsAB f).getD [])
           (layoutNames coordsAB wsHdrA) fileA.name) :=
  C5_layout_validator.1 "1" coordsAB 2 fileA [fileB, fileC] wsHdrA rfl (by decide)
    (by
      intro f hf
      simp only [List.mem_cons, List.mem_singleton, List.not_mem_nil, or_false] at hf
      rcases hf with hf | hf
      · subst hf
        exact ⟨wsHdrA, rfl, by decide⟩
      · subst hf
        exact ⟨wsHdrC, rfl, by decide⟩)

/-- C8: the per-series orchestration is deterministic. Re-running it on the
same inputs is the identical function application, and — because the
directory listing is sorted before processing — the produced artifacts do
not depend on the enumeration order in which the filesystem returns the
same set of files. -/
theorem C8_orchestration_deterministic :
    (∀ (content : String → Workbook) (listing : List String),
       orchestrate content listing = orchestrate content listing) ∧
    (∀ (content : String → Workbook) (l₁ l₂ : List String),
       l₁.Perm l₂ → orchestrate content l₁ = orchestrate content l₂) := by
  constructor
  · intro content listing
    rfl
  · intro content l₁ l₂ h
    have hs : sortedListing l₁ = sortedListing l₂ := by
      unfold sortedListing
      rw [Multiset.coe_eq_coe.mpr h]
    unfold orchestrate
    rw [hs]

/-- Witness for C8: two enumeration orders of the same two files. -/
theorem C8_orchestration_deterministic_witness :
    orchestrate (fun _ => { sheets := [] }) ["fz1_2021.xlsx", "fz1_2020.xlsx"] =
      orchestrate (fun _ => { sheets := [] }) ["fz1_2020.xlsx", "fz1_2021.xlsx"] :=
  C8_orchestration_deterministic.2 (fun _ => { sheets := [] })
    ["fz1_2021.xlsx", "fz1_2020.xlsx"] ["fz1_2020.xlsx", "fz1_2021.xlsx"] (by decide)

/-- Witness for C3: the general refinement applied at a concrete header
sequence. -/
theorem C3_unique_disambiguation_witness :
    _unique ["A", "B", "A", "A"] = uniqueSpec ["A", "B", "A", "A"] :=
  C3_unique_disambiguation.1 ["A", "B", "A", "A"]
